import Mathlib

/-!
# Verification of the serde boundary codecs of starknet-devnet-rs

Shallow embedding of `crates/starknet-server/src/api/serde_helpers.rs`:
the empty-params guard, the sierra-contract-class shape normalizer, the
base64+gzip program-blob decoder, and the prefixed-hex field-element /
constrained-key codecs, together with theorems about their behaviour.

JSON documents are modelled by an inductive `Json` mirroring
`serde_json::Value` (numbers restricted to integers, which is all the
claims exercise; objects are association lists).  serde deserialization
errors are modelled by `DeError`; the `starknet-types` error enum that the
felt/key constructors produce is modelled by `TypesError`.  External
library functions that the source calls (the gzip decompressor, the
`LegacyProgram` schema parser and its re-serialization) are taken as
explicit function parameters of the embedding, so every theorem is
quantified over them; the base64 decoder (standard alphabet, padded) is
implemented concretely.
-/

/-- Model of `serde_json::Value`.  Numbers are restricted to integers
(the claims never exercise floating-point values); objects are
association lists of fields. -/
inductive Json where
  | null : Json
  | bool (b : Bool) : Json
  | num (n : Int) : Json
  | str (s : String) : Json
  | arr (items : List Json) : Json
  | obj (fields : List (String × Json)) : Json

/-- Model of the error enum of the `starknet-types` crate, as far as the
hex/felt/key codecs use it. -/
inductive TypesError where
  | malformedHex : TypesError
  | outOfRange (value bound : Nat) : TypesError
deriving DecidableEq

/-- Model of a `serde::de::Error` produced while deserializing.
`custom msg` is `serde::de::Error::custom` of a literal message string;
`invalidType` is the type-mismatch error serde_json raises when a value
has the wrong JSON type (it records the offending value and the expected
type); `nestedJsonParseError` stands for `Error::custom` of the
(input-dependent) serde_json diagnostic raised when parsing the embedded
`abi` string fails; `fromTypesError e` stands for `Error::custom` of the
display of the `starknet-types` error `e`. -/
inductive DeError where
  | custom (msg : String) : DeError
  | invalidType (found : Json) (expected : String) : DeError
  | nestedJsonParseError : DeError
  | fromTypesError (e : TypesError) : DeError

/-! ## Decidable equality for `Json` (nested inductive, done by hand) -/

mutual

/-- Boolean equality on `Json`. -/
def Json.beq : Json → Json → Bool
  | .null, .null => true
  | .bool a, .bool b => a == b
  | .num a, .num b => a == b
  | .str a, .str b => a == b
  | .arr a, .arr b => Json.beqList a b
  | .obj a, .obj b => Json.beqFields a b
  | _, _ => false

/-- Boolean equality on lists of `Json`. -/
def Json.beqList : List Json → List Json → Bool
  | [], [] => true
  | a :: as, b :: bs => Json.beq a b && Json.beqList as bs
  | _, _ => false

/-- Boolean equality on object field lists. -/
def Json.beqFields : List (String × Json) → List (String × Json) → Bool
  | [], [] => true
  | (k, v) :: as, (k', v') :: bs => k == k' && Json.beq v v' && Json.beqFields as bs
  | _, _ => false

end

mutual

theorem Json.beq_iff : ∀ a b : Json, Json.beq a b = true ↔ a = b
  | .null, .null => by simp [Json.beq]
  | .null, .bool _ | .null, .num _ | .null, .str _ | .null, .arr _ | .null, .obj _ => by
      simp [Json.beq]
  | .bool _, .null | .bool _, .num _ | .bool _, .str _ | .bool _, .arr _ | .bool _, .obj _ => by
      simp [Json.beq]
  | .num _, .null | .num _, .bool _ | .num _, .str _ | .num _, .arr _ | .num _, .obj _ => by
      simp [Json.beq]
  | .str _, .null | .str _, .bool _ | .str _, .num _ | .str _, .arr _ | .str _, .obj _ => by
      simp [Json.beq]
  | .arr _, .null | .arr _, .bool _ | .arr _, .num _ | .arr _, .str _ | .arr _, .obj _ => by
      simp [Json.beq]
  | .obj _, .null | .obj _, .bool _ | .obj _, .num _ | .obj _, .str _ | .obj _, .arr _ => by
      simp [Json.beq]
  | .bool a, .bool b => by simp [Json.beq]
  | .num a, .num b => by simp [Json.beq]
  | .str a, .str b => by simp [Json.beq]
  | .arr a, .arr b => by
      simp only [Json.beq, Json.arr.injEq]
      exact Json.beqList_iff a b
  | .obj a, .obj b => by
      simp only [Json.beq, Json.obj.injEq]
      exact Json.beqFields_iff a b

theorem Json.beqList_iff : ∀ a b : List Json, Json.beqList a b = true ↔ a = b
  | [], [] => by simp [Json.beqList]
  | [], _ :: _ => by simp [Json.beqList]
  | _ :: _, [] => by simp [Json.beqList]
  | a :: as, b :: bs => by
      simp only [Json.beqList, Bool.and_eq_true, List.cons.injEq]
      exact and_congr (Json.beq_iff a b) (Json.beqList_iff as bs)

theorem Json.beqFields_iff :
    ∀ a b : List (String × Json), Json.beqFields a b = true ↔ a = b
  | [], [] => by simp [Json.beqFields]
  | [], _ :: _ => by simp [Json.beqFields]
  | _ :: _, [] => by simp [Json.beqFields]
  | (k, v) :: as, (k', v') :: bs => by
      simp only [Json.beqFields, Bool.and_eq_true, List.cons.injEq, Prod.mk.injEq,
        beq_iff_eq]
      exact and_congr (and_congr Iff.rfl (Json.beq_iff v v')) (Json.beqFields_iff as bs)

end

instance : DecidableEq Json := fun a b =>
  decidable_of_iff (Json.beq a b = true) (Json.beq_iff a b)

/-- Boolean equality on `DeError`. -/
def DeError.beq : DeError → DeError → Bool
  | .custom a, .custom b => a == b
  | .invalidType a₁ a₂, .invalidType b₁ b₂ => decide (a₁ = b₁) && a₂ == b₂
  | .nestedJsonParseError, .nestedJsonParseError => true
  | .fromTypesError a, .fromTypesError b => decide (a = b)
  | _, _ => false

theorem DeError.beq_correct (a b : DeError) : DeError.beq a b = true ↔ a = b := by
  cases a <;> cases b <;> simp [DeError.beq]

instance : DecidableEq DeError := fun a b =>
  decidable_of_iff (DeError.beq a b = true) (DeError.beq_correct a b)

/-! ## Basic accessors on `Json` (mirroring `serde_json::Value`) -/

/-- Lookup of a key in an object's field list (model of map lookup in
`serde_json::Map`: at most one entry per key is ever present). -/
def lookupField : List (String × Json) → String → Option Json
  | [], _ => none
  | (k', v) :: rest, k => if k' = k then some v else lookupField rest k

/-- Model of `serde_json::Value::get(key)`: field lookup, `None` on any
non-object value. -/
def Json.getField : Json → String → Option Json
  | .obj fields, k => lookupField fields k
  | _, _ => none

/-- Model of `serde_json::Value::as_object_mut` (as a read of the field
list): the fields of an object, `None` on any non-object value. -/
def Json.asObjectFields : Json → Option (List (String × Json))
  | .obj fields => some fields
  | _ => none

/-- Model of `serde_json::Map::insert`: replace the value stored at `k`
in place, or append a new entry when `k` is absent. -/
def updateField : List (String × Json) → String → Json → List (String × Json)
  | [], k, v => [(k, v)]
  | (k', v') :: rest, k, v =>
      if k' = k then (k, v) :: rest else (k', v') :: updateField rest k v

/-! ## `empty_params::deserialize`

The source reads `Option::<Vec<()>>::deserialize(d)?.unwrap_or_default()`
and rejects a non-empty result with a custom error reporting its length.
The three parsers below model how serde_json deserializes `()`,
`Vec<()>` and `Option<Vec<()>>` from a JSON value. -/

/-- serde_json deserialization of `()`: only `null` is accepted; any
other value raises an invalid-type error expecting `unit`. -/
def parseUnit : Json → Except DeError Unit
  | .null => .ok ()
  | v => .error (.invalidType v "unit")

/-- The element loop of serde_json's `Vec<()>` deserialization: each
element deserializes as `()`, left to right, failing at the first bad
element. -/
def parseUnitSeq : List Json → Except DeError (List Unit)
  | [] => .ok []
  | x :: xs =>
      match parseUnit x with
      | .error e => .error e
      | .ok u =>
          match parseUnitSeq xs with
          | .error e => .error e
          | .ok us => .ok (u :: us)

/-- serde_json deserialization of `Vec<()>`: a JSON array whose elements
each deserialize as `()`, left to right, failing at the first bad
element; any non-array raises an invalid-type error expecting a
sequence. -/
def parseVecUnit : Json → Except DeError (List Unit)
  | .arr items => parseUnitSeq items
  | v => .error (.invalidType v "a sequence")

/-- serde_json deserialization of `Option<Vec<()>>`: `null` is `None`;
anything else deserializes the inner `Vec<()>`. -/
def parseOptVecUnit : Json → Except DeError (Option (List Unit))
  | .null => .ok none
  | v => (parseVecUnit v).map some

/-- Embedding of `empty_params::deserialize` applied to a present JSON
value: deserialize `Option<Vec<()>>`, default the absent case to the
empty vector, and reject a non-empty result with the custom
`expected params sequence with length 0 but got n` error. -/
def empty_params_deserialize (j : Json) : Except DeError Unit :=
  match parseOptVecUnit j with
  | .error e => .error e
  | .ok o =>
      let seq := o.getD []
      if seq.isEmpty then .ok ()
      else .error (.custom ("expected params sequence with length 0 but got " ++
        toString seq.length))

/-- Modelled from the spec: the serde field plumbing that decides what an
absent `params` field presents to `empty_params::deserialize` lives in the
callers, outside `src/`; the spec says the guard "treats absence as an
empty sequence", so an absent field (`none`) is accepted and a present
value is handed to the embedded deserializer. -/
def empty_params_field : Option Json → Except DeError Unit
  | none => .ok ()
  | some v => empty_params_deserialize v

/-! ## The sierra-contract-class shape normalizer

`deserialize_to_sierra_contract_class` first deserializes the raw
`serde_json::Value`, then — when the `abi` field holds a string — parses
that string as JSON (`serde_json::from_str`, modelled by the function
parameter `parseJson`; `none` stands for a parse failure, whose
diagnostic the source wraps with `Error::custom`, modelled by
`DeError.nestedJsonParseError`) and writes the parsed value back into the
object, then hands the document to the generic typed decode
(`serde_json::from_value::<ContractClass>`, modelled by the function
parameter `fromValue`). -/

/-- The `abi`-rewriting phase of `deserialize_to_sierra_contract_class`
(everything before the final `serde_json::from_value`). -/
def normalize_sierra_abi (parseJson : String → Option Json) (j : Json) :
    Except DeError Json :=
  match j.getField "abi" with
  | some (.str abiString) =>
      match parseJson abiString with
      | none => .error .nestedJsonParseError
      | some arr =>
          match j.asObjectFields with
          | none => .error (.custom "Expected to be an object")
          | some fields => .ok (.obj (updateField fields "abi" arr))
  | _ => .ok j

/-- Embedding of the whole of `deserialize_to_sierra_contract_class`:
normalize the `abi` field, then run the generic typed decode. -/
def deserialize_to_sierra_contract_class {C : Type} (parseJson : String → Option Json)
    (fromValue : Json → Except DeError C) (j : Json) : Except DeError C :=
  (normalize_sierra_abi parseJson j).bind fromValue

/-! ## The base64+gzip program-blob decoder

Bytes are modelled as `List Nat` (each entry < 256).  The base64 decoder
(standard alphabet, canonical padding — the behaviour of
`base64::engine::general_purpose::STANDARD`) is implemented concretely.
The gzip decompressor (`flate2::read::GzDecoder`) and the
`LegacyProgram` schema parser are external libraries; they appear as
function parameters `gunzip` and `parseLegacyProgram`, composed as
`serde_json::from_reader(GzDecoder::new(bytes))` composes them: a single
fallible step whose failure — whether the gzip stream or the schema is at
fault — is mapped by one `map_err` to one error.  `toValue` models the
final `serde_json::to_value` re-serialization. -/

/-- Value of one base64 alphabet character (standard alphabet). -/
def b64CharVal : Char → Option Nat := fun c =>
  if 'A' ≤ c ∧ c ≤ 'Z' then some (c.toNat - 65)
  else if 'a' ≤ c ∧ c ≤ 'z' then some (c.toNat - 97 + 26)
  else if '0' ≤ c ∧ c ≤ '9' then some (c.toNat - 48 + 52)
  else if c = '+' then some 62
  else if c = '/' then some 63
  else none

/-- Decode a base64 character stream, four characters at a time, with
canonical `=` padding allowed only in the final quantum. -/
def b64DecodeChunks : List Char → Option (List Nat)
  | [] => some []
  | a :: b :: c :: d :: rest =>
      match b64CharVal a, b64CharVal b with
      | some va, some vb =>
          if c = '=' then
            if d = '=' ∧ rest = [] ∧ vb % 16 = 0 then some [va * 4 + vb / 16] else none
          else
            match b64CharVal c with
            | some vc =>
                if d = '=' then
                  if rest = [] ∧ vc % 4 = 0 then
                    some [va * 4 + vb / 16, vb % 16 * 16 + vc / 4]
                  else none
                else
                  match b64CharVal d, b64DecodeChunks rest with
                  | some vd, some tail =>
                      some ((va * 4 + vb / 16) :: (vb % 16 * 16 + vc / 4) ::
                        (vc % 4 * 64 + vd) :: tail)
                  | _, _ => none
            | none => none
      | _, _ => none
  | _ => none

/-- Model of `base64::engine::general_purpose::STANDARD.decode`:
standard alphabet, canonical padding to a multiple of four characters. -/
def base64Decode (s : String) : Option (List Nat) :=
  b64DecodeChunks s.toList

/-- Embedding of `deserialize_to_serde_json_value_with_keys_ordered_in_alphabetical_order`
applied to the deserialized input string: the empty string short-circuits
to `Json.null`; otherwise base64-decode (failure: the custom base64
error), then decompress-and-schema-parse in one step (failure of either:
the custom gzip error), then re-serialize (failure: the custom to-JSON
error). -/
def deserialize_to_serde_json_value_with_keys_ordered_in_alphabetical_order
    {P : Type} (gunzip : List Nat → Option (List Nat))
    (parseLegacyProgram : List Nat → Option P) (toValue : P → Option Json)
    (buf : String) : Except DeError Json :=
  if buf = "" then .ok Json.null
  else
    match base64Decode buf with
    | none => .error (.custom "program: Unable to decode base64 string")
    | some bytes =>
        match (gunzip bytes).bind parseLegacyProgram with
        | none => .error (.custom "program: Unable to decode gzipped bytes")
        | some p =>
            match toValue p with
            | none => .error (.custom "program: Unable to parse to JSON")
            | some v => .ok v

/-! ## The field-element hex codec

`Felt::from_prefixed_hex_str` / `Felt::to_prefixed_hex_str` live in the
repository's `starknet-types` crate, outside `src/`; they are modelled
from the spec.  A field element is a `Nat` below the Stark prime. -/

/-- The Stark field prime, `2^251 + 17 * 2^192 + 1`. -/
def FELT_PRIME : Nat :=
  3618502788666131213697322783095070105623107215331596699973092056135872020481

/-- Value of one hex digit character; both letter cases are accepted. -/
def hexCharVal (c : Char) : Option Nat :=
  if '0' ≤ c ∧ c ≤ '9' then some (c.toNat - 48)
  else if 'a' ≤ c ∧ c ≤ 'f' then some (c.toNat - 87)
  else if 'A' ≤ c ∧ c ≤ 'F' then some (c.toNat - 55)
  else none

/-- Hex digit values of a character list, left to right; `none` at the
first non-hex character. -/
def hexCharsToDigits : List Char → Option (List Nat)
  | [] => some []
  | c :: cs =>
      match hexCharVal c with
      | none => none
      | some d =>
          match hexCharsToDigits cs with
          | none => none
          | some ds => some (d :: ds)

/-- The lowercase character of a hex digit value (junk above 15). -/
def toHexDigitChar (d : Nat) : Char :=
  if d < 10 then Char.ofNat (48 + d) else Char.ofNat (87 + d)

/-- The sixteen lowercase hex digit characters, by value. -/
def lowerHexChars : List Char :=
  (List.range 16).map toHexDigitChar

/-- Numeric value of a big-endian list of hex digit values. -/
def beVal (ds : List Nat) : Nat :=
  ds.foldl (fun acc d => acc * 16 + d) 0

/-- Numeric value of a little-endian list of hex digit values. -/
def leVal : List Nat → Nat
  | [] => 0
  | d :: ds => d + 16 * leVal ds

/-- Little-endian hex digit values of `n`, with explicit fuel (the empty
list represents zero). -/
def natToHexLEAux : Nat → Nat → List Nat
  | 0, _ => []
  | fuel + 1, n => if n = 0 then [] else n % 16 :: natToHexLEAux fuel (n / 16)

/-- Little-endian hex digit values of `n` (the empty list represents
zero). -/
def natToHexLE (n : Nat) : List Nat :=
  natToHexLEAux n n

/-- Modelled from the spec: `Felt::from_prefixed_hex_str` of the
`starknet-types` crate (outside `src/`).  Accepts `0x` followed by one or
more hex digits, big-endian; fails with `MalformedHex` when the prefix is
missing, a non-hex character appears, or the magnitude is not below the
field modulus. -/
def from_prefixed_hex_chars (cs : List Char) : Except TypesError Nat :=
  match cs with
  | '0' :: 'x' :: rest =>
      match rest with
      | [] => .error .malformedHex
      | _ =>
          match hexCharsToDigits rest with
          | none => .error .malformedHex
          | some ds =>
              if beVal ds < FELT_PRIME then .ok (beVal ds) else .error .malformedHex
  | _ => .error .malformedHex

/-- Modelled from the spec: `Felt::from_prefixed_hex_str`, at the string
level. -/
def from_prefixed_hex_str (s : String) : Except TypesError Nat :=
  from_prefixed_hex_chars s.toList

/-- The canonical textual form of a field element, per the spec's data
model: `0x` followed by one or more lowercase hex digits, no leading
zeros beyond a single `0x0` for the zero value, and (FieldElement
invariant) numeric value below the field modulus. -/
def IsCanonicalFeltHex (s : String) : Prop :=
  ∃ cs : List Char,
    s.toList = '0' :: 'x' :: cs ∧ cs ≠ [] ∧
    (∀ c ∈ cs, c ∈ lowerHexChars) ∧
    (cs.head? = some '0' → cs = ['0']) ∧
    beVal (cs.map fun c => (hexCharVal c).getD 0) < FELT_PRIME

/-- Modelled from the spec: `Felt::to_prefixed_hex_str` of the
`starknet-types` crate (outside `src/`).  Always lowercase, `0x`-prefixed,
no padding, with a single `0` digit for zero. -/
def to_prefixed_hex_str (v : Nat) : String :=
  if v = 0 then "0x0"
  else "0x" ++ String.mk (((natToHexLE v).map toHexDigitChar).reverse)

/-! ## The constrained-key constructors

`PatriciaKey::new` and `ContractAddress::new` live in the repository's
`starknet-types` crate, outside `src/`; they are modelled from the spec
("construct the key iff `0 <= v < B`; otherwise fail with `OutOfRange`,
carrying the offending value and the bound"), with the tree-key bound
pinned by the in-`src/` tests (the felt `2^251` is accepted as a
`PatriciaKey` and `2^251 + 1` is rejected) and the address bound the
Starknet address bound `2^251 - 256`. -/

/-- Exclusive upper bound of the tree-key variant: the in-`src/` tests
accept `2^251` and reject `2^251 + 1`. -/
def PATRICIA_KEY_BOUND : Nat := 2 ^ 251 + 1

/-- Exclusive upper bound of the contract-address variant. -/
def CONTRACT_ADDRESS_BOUND : Nat := 2 ^ 251 - 256

/-- Modelled from the spec: `PatriciaKey::new` — construct iff the felt
is below the tree-key bound, else `OutOfRange` with the value and the
bound. -/
def patriciaKeyNew (felt : Nat) : Except TypesError Nat :=
  if felt < PATRICIA_KEY_BOUND then .ok felt
  else .error (.outOfRange felt PATRICIA_KEY_BOUND)

/-- Modelled from the spec: `ContractAddress::new` — construct iff the
felt is below the address bound, else `OutOfRange` with the value and the
bound. -/
def contractAddressNew (felt : Nat) : Except TypesError Nat :=
  if felt < CONTRACT_ADDRESS_BOUND then .ok felt
  else .error (.outOfRange felt CONTRACT_ADDRESS_BOUND)

/-! ## The serde hex-string entry points of `hex_string` -/

/-- Embedding of `deserialize_prefixed_hex_string_to_felt` applied to the
deserialized input string: delegate to `Felt::from_prefixed_hex_str`,
wrapping its error with `Error::custom`. -/
def deserialize_prefixed_hex_string_to_felt (s : String) : Except DeError Nat :=
  match from_prefixed_hex_str s with
  | .ok v => .ok v
  | .error e => .error (.fromTypesError e)

/-- Embedding of `deserialize_non_prefixed_hex_string_to_felt` applied to
the deserialized input string: re-prefix with `0x` and delegate to
`Felt::from_prefixed_hex_str`, wrapping its error with `Error::custom`. -/
def deserialize_non_prefixed_hex_string_to_felt (s : String) : Except DeError Nat :=
  match from_prefixed_hex_str ("0x" ++ s) with
  | .ok v => .ok v
  | .error e => .error (.fromTypesError e)

/-- Embedding of `deserialize_to_prefixed_patricia_key`: decode the felt,
then construct the `PatriciaKey`, wrapping a construction error with
`Error::custom`. -/
def deserialize_to_prefixed_patricia_key (s : String) : Except DeError Nat :=
  match deserialize_prefixed_hex_string_to_felt s with
  | .error e => .error e
  | .ok felt =>
      match patriciaKeyNew felt with
      | .ok k => .ok k
      | .error e => .error (.fromTypesError e)

/-- Embedding of `deserialize_to_prefixed_contract_address`: decode the
felt, then construct the `ContractAddress`, wrapping a construction error
with `Error::custom`. -/
def deserialize_to_prefixed_contract_address (s : String) : Except DeError Nat :=
  match deserialize_prefixed_hex_string_to_felt s with
  | .error e => .error e
  | .ok felt =>
      match contractAddressNew felt with
      | .ok k => .ok k
      | .error e => .error (.fromTypesError e)

/-- Embedding of `serialize_to_prefixed_hex`: emit
`Felt::to_prefixed_hex_str`. -/
def serialize_to_prefixed_hex (felt : Nat) : String :=
  to_prefixed_hex_str felt

/-- Stand-in for `serde_json::from_str` at the spec's example input: the
string `"[1,2,3]"` parses to the JSON array `[1,2,3]` (and nothing else
is accepted), which is how serde_json parses that string. -/
def exampleAbiParser : String → Option Json := fun s =>
  if s = "[1,2,3]" then some (Json.arr [Json.num 1, Json.num 2, Json.num 3]) else none

instance {ε α : Type} [DecidableEq ε] [DecidableEq α] : DecidableEq (Except ε α) :=
  fun a b =>
    match a, b with
    | .ok x, .ok y =>
        if h : x = y then isTrue (by rw [h]) else isFalse (fun c => h (Except.ok.inj c))
    | .error x, .error y =>
        if h : x = y then isTrue (by rw [h]) else isFalse (fun c => h (Except.error.inj c))
    | .ok _, .error _ => isFalse (fun c => Except.noConfusion c)
    | .error _, .ok _ => isFalse (fun c => Except.noConfusion c)

/-! ## Supporting lemmas about the normalizer -/

/-- `Value::get` only answers on objects. -/
theorem Json.getField_some {j : Json} {k : String} {v : Json}
    (h : j.getField k = some v) : ∃ fields, j = Json.obj fields := by
  cases j with
  | obj fields => exact ⟨fields, rfl⟩
  | null => exact Option.noConfusion h
  | bool b => exact Option.noConfusion h
  | num n => exact Option.noConfusion h
  | str s => exact Option.noConfusion h
  | arr items => exact Option.noConfusion h

/-- On a non-object, `Value::get` answers nothing. -/
theorem Json.getField_of_asObjectFields_none {j : Json} (h : j.asObjectFields = none)
    (k : String) : j.getField k = none := by
  cases j with
  | obj fields => exact Option.noConfusion h
  | null => rfl
  | bool b => rfl
  | num n => rfl
  | str s => rfl
  | arr items => rfl

/-! ## Claims C1, C6, C10 — the shape normalizer -/

/-- **C1, amended** — a JSON value that is not an object does not make the
normalizer fail with the `ShapeError` ("Expected to be an object"): the
`abi` lookup yields nothing on a non-object, so the normalizer returns the
document unchanged, and whatever failure follows comes from the
subsequent generic typed decode, not from the normalizer's shape check. -/
theorem claim_C1 (parseJson : String → Option Json) (j : Json)
    (h : j.asObjectFields = none) : normalize_sierra_abi parseJson j = .ok j := by
  unfold normalize_sierra_abi
  rw [Json.getField_of_asObjectFields_none h]

/-- **C1, witness** — the non-object `7` is returned unchanged. -/
theorem claim_C1_witness :
    Json.asObjectFields (Json.num 7) = none ∧
      normalize_sierra_abi (fun _ => none) (Json.num 7) = .ok (Json.num 7) :=
  ⟨rfl, claim_C1 (fun _ => none) (Json.num 7) rfl⟩

/-- **C1, counterexample** — the claim says every non-object input fails
with `ShapeError`; the non-object string `"hello"` is instead returned
unchanged by the normalizer, with no error at all. -/
theorem claim_C1_counterexample :
    normalize_sierra_abi (fun _ => none) (Json.str "hello") = .ok (Json.str "hello") ∧
      normalize_sierra_abi (fun _ => none) (Json.str "hello") ≠
        .error (DeError.custom "Expected to be an object") := by
  exact ⟨rfl, by decide⟩

/-- **C6** — on an object whose `abi` field is a string: when the string
parses, the parsed value replaces the field in place; when the `abi`
lookup does not yield a string (absent field, non-object, or a non-string
value such as an array), the document is returned unchanged; when the
string does not parse, the normalizer fails with the nested-JSON parse
error.  Moreover the spec's example holds: the document whose `abi` is
the string `"[1,2,3]"` normalizes to one whose `abi` is the array
`[1,2,3]`, and one whose `abi` is already an array is unchanged. -/
theorem claim_C6 :
    (∀ (parseJson : String → Option Json) (fields : List (String × Json))
        (s : String) (arr : Json),
        lookupField fields "abi" = some (Json.str s) → parseJson s = some arr →
        normalize_sierra_abi parseJson (Json.obj fields) =
          .ok (Json.obj (updateField fields "abi" arr))) ∧
    (∀ (parseJson : String → Option Json) (j : Json),
        (∀ s, j.getField "abi" ≠ some (Json.str s)) →
        normalize_sierra_abi parseJson j = .ok j) ∧
    (∀ (parseJson : String → Option Json) (j : Json) (s : String),
        j.getField "abi" = some (Json.str s) → parseJson s = none →
        normalize_sierra_abi parseJson j = .error DeError.nestedJsonParseError) ∧
    normalize_sierra_abi exampleAbiParser (Json.obj [("abi", Json.str "[1,2,3]")]) =
      .ok (Json.obj [("abi", Json.arr [Json.num 1, Json.num 2, Json.num 3])]) ∧
    normalize_sierra_abi exampleAbiParser
        (Json.obj [("abi", Json.arr [Json.num 1, Json.num 2, Json.num 3])]) =
      .ok (Json.obj [("abi", Json.arr [Json.num 1, Json.num 2, Json.num 3])]) := by
  refine ⟨?_, ?_, ?_, rfl, rfl⟩
  · intro parseJson fields s arr hget hparse
    have hg : (Json.obj fields).getField "abi" = some (Json.str s) := hget
    simp [normalize_sierra_abi, hg, hparse, Json.asObjectFields]
  · intro parseJson j hno
    cases hg : j.getField "abi" with
    | none => simp [normalize_sierra_abi, hg]
    | some v =>
        cases v with
        | str s => exact absurd hg (hno s)
        | null => simp [normalize_sierra_abi, hg]
        | bool b => simp [normalize_sierra_abi, hg]
        | num n => simp [normalize_sierra_abi, hg]
        | arr items => simp [normalize_sierra_abi, hg]
        | obj fields => simp [normalize_sierra_abi, hg]
  · intro parseJson j s hget hparse
    simp [normalize_sierra_abi, hget, hparse]

/-- **C6, witness** — the three conditional parts of `claim_C6`
discharged on concrete documents. -/
theorem claim_C6_witness :
    normalize_sierra_abi exampleAbiParser (Json.obj [("x", Json.null), ("abi", Json.str "[1,2,3]")]) =
      .ok (Json.obj [("x", Json.null), ("abi", Json.arr [Json.num 1, Json.num 2, Json.num 3])]) ∧
    normalize_sierra_abi exampleAbiParser (Json.obj [("x", Json.null)]) =
      .ok (Json.obj [("x", Json.null)]) ∧
    normalize_sierra_abi exampleAbiParser (Json.obj [("abi", Json.str "oops")]) =
      .error DeError.nestedJsonParseError := by
  refine ⟨?_, ?_, ?_⟩
  · exact claim_C6.1 exampleAbiParser [("x", Json.null), ("abi", Json.str "[1,2,3]")]
      "[1,2,3]" (Json.arr [Json.num 1, Json.num 2, Json.num 3]) (by decide) (by decide)
  · exact claim_C6.2.1 exampleAbiParser (Json.obj [("x", Json.null)])
      (fun s h => Option.noConfusion h)
  · exact claim_C6.2.2.1 exampleAbiParser (Json.obj [("abi", Json.str "oops")]) "oops"
      (by decide) (by decide)

/-- **C10** — the "Expected to be an object" branch of the normalizer is
unreachable: whenever the `abi` lookup yields a string the document is
necessarily an object (so `as_object_mut` succeeds), and for no input —
whatever the embedded-JSON parser does — does the normalizer return that
error. -/
theorem claim_C10 :
    (∀ (j : Json) (s : String), j.getField "abi" = some (Json.str s) →
        (j.asObjectFields).isSome = true) ∧
    (∀ (parseJson : String → Option Json) (j : Json),
        normalize_sierra_abi parseJson j ≠ .error (DeError.custom "Expected to be an object")) := by
  constructor
  · intro j s h
    obtain ⟨fields, rfl⟩ := Json.getField_some h
    rfl
  · intro parseJson j
    cases hg : j.getField "abi" with
    | none => simp [normalize_sierra_abi, hg]
    | some v =>
        cases v with
        | str s =>
            obtain ⟨fields, rfl⟩ := Json.getField_some hg
            cases hp : parseJson s with
            | none => simp [normalize_sierra_abi, hg, hp]
            | some arr => simp [normalize_sierra_abi, hg, hp, Json.asObjectFields]
        | null => simp [normalize_sierra_abi, hg]
        | bool b => simp [normalize_sierra_abi, hg]
        | num n => simp [normalize_sierra_abi, hg]
        | arr items => simp [normalize_sierra_abi, hg]
        | obj fields => simp [normalize_sierra_abi, hg]

/-- **C10, witness** — the first part of `claim_C10` discharged on a
concrete document whose `abi` is a string. -/
theorem claim_C10_witness :
    (Json.asObjectFields (Json.obj [("abi", Json.str "[]")])).isSome = true :=
  claim_C10.1 (Json.obj [("abi", Json.str "[]")]) "[]" (by decide)

/-! ## Claims C3, C7, C9 — the program-blob decoder -/

/-- **C7** — the empty input string short-circuits the blob decoder to the
null document, whatever the decompressor, schema parser and re-serializer
do (they are never consulted), and never an error. -/
theorem claim_C7 (P : Type) (gunzip : List Nat → Option (List Nat))
    (parseLegacyProgram : List Nat → Option P) (toValue : P → Option Json) :
    deserialize_to_serde_json_value_with_keys_ordered_in_alphabetical_order
      gunzip parseLegacyProgram toValue "" = .ok Json.null := rfl

/-- **C3, amended** — the blob decoder distinguishes only the base64 step
by error: a non-empty string that is not valid base64 fails with the
base64 error; but a failed decompression and successfully decompressed
bytes that do not match the legacy-program schema both fail with the same
"Unable to decode gzipped bytes" error (one `map_err` covers the combined
`serde_json::from_reader(GzDecoder::new(..))` step and discards the
underlying diagnostic), so no distinct schema-decode error exists. -/
theorem claim_C3 :
    (∀ (P : Type) (gunzip : List Nat → Option (List Nat))
        (parseLegacyProgram : List Nat → Option P) (toValue : P → Option Json)
        (buf : String), buf ≠ "" → base64Decode buf = none →
        deserialize_to_serde_json_value_with_keys_ordered_in_alphabetical_order
          gunzip parseLegacyProgram toValue buf =
          .error (.custom "program: Unable to decode base64 string")) ∧
    (∀ (P : Type) (gunzip : List Nat → Option (List Nat))
        (parseLegacyProgram : List Nat → Option P) (toValue : P → Option Json)
        (buf : String) (bytes : List Nat), buf ≠ "" → base64Decode buf = some bytes →
        gunzip bytes = none →
        deserialize_to_serde_json_value_with_keys_ordered_in_alphabetical_order
          gunzip parseLegacyProgram toValue buf =
          .error (.custom "program: Unable to decode gzipped bytes")) ∧
    (∀ (P : Type) (gunzip : List Nat → Option (List Nat))
        (parseLegacyProgram : List Nat → Option P) (toValue : P → Option Json)
        (buf : String) (bytes decompressed : List Nat), buf ≠ "" →
        base64Decode buf = some bytes → gunzip bytes = some decompressed →
        parseLegacyProgram decompressed = none →
        deserialize_to_serde_json_value_with_keys_ordered_in_alphabetical_order
          gunzip parseLegacyProgram toValue buf =
          .error (.custom "program: Unable to decode gzipped bytes")) := by
  refine ⟨?_, ?_, ?_⟩
  · intro P gunzip parseLegacyProgram toValue buf hne hb
    simp [deserialize_to_serde_json_value_with_keys_ordered_in_alphabetical_order,
      hne, hb]
  · intro P gunzip parseLegacyProgram toValue buf bytes hne hb hg
    simp [deserialize_to_serde_json_value_with_keys_ordered_in_alphabetical_order,
      hne, hb, hg]
  · intro P gunzip parseLegacyProgram toValue buf bytes decompressed hne hb hg hp
    simp [deserialize_to_serde_json_value_with_keys_ordered_in_alphabetical_order,
      hne, hb, hg, hp]

/-- **C3, witness** — the three parts of `claim_C3` discharged on
concrete inputs: `"!"` is not base64; `"e30="` is the base64 of the two
bytes `{` `}`, on which a failing decompressor and a failing schema
parse (after an identity decompressor) are exhibited. -/
theorem claim_C3_witness :
    deserialize_to_serde_json_value_with_keys_ordered_in_alphabetical_order
        (fun _ => none) (fun _ => (none : Option Unit)) (fun _ => none) "!" =
      .error (.custom "program: Unable to decode base64 string") ∧
    deserialize_to_serde_json_value_with_keys_ordered_in_alphabetical_order
        (fun _ => none) (fun _ => (none : Option Unit)) (fun _ => none) "e30=" =
      .error (.custom "program: Unable to decode gzipped bytes") ∧
    deserialize_to_serde_json_value_with_keys_ordered_in_alphabetical_order
        (fun bs => some bs) (fun _ => (none : Option Unit)) (fun _ => none) "e30=" =
      .error (.custom "program: Unable to decode gzipped bytes") := by
  refine ⟨?_, ?_, ?_⟩
  · exact claim_C3.1 Unit (fun _ => none) (fun _ => none) (fun _ => none) "!"
      (by decide) rfl
  · exact claim_C3.2.1 Unit (fun _ => none) (fun _ => none) (fun _ => none) "e30="
      [123, 125] (by decide) rfl rfl
  · exact claim_C3.2.2 Unit (fun bs => some bs) (fun _ => none) (fun _ => none) "e30="
      [123, 125] [123, 125] (by decide) rfl rfl rfl

/-- **C3, counterexample** — the claim says a schema mismatch after a
successful decompression fails with a `SchemaDecodeError` distinct from
the `DecompressionError` and carrying the parse diagnostic; but on the
valid base64 input `"e30="` the schema-mismatch run (identity
decompressor, failing schema parse) produces exactly the same error value
as the failed-decompression run — the gzip-step error, with no
diagnostic. -/
theorem claim_C3_counterexample :
    deserialize_to_serde_json_value_with_keys_ordered_in_alphabetical_order
        (fun bs => some bs) (fun _ => (none : Option Unit)) (fun _ => none) "e30=" =
      deserialize_to_serde_json_value_with_keys_ordered_in_alphabetical_order
        (fun _ => none) (fun _ => (none : Option Unit)) (fun _ => none) "e30=" ∧
    deserialize_to_serde_json_value_with_keys_ordered_in_alphabetical_order
        (fun bs => some bs) (fun _ => (none : Option Unit)) (fun _ => none) "e30=" =
      .error (.custom "program: Unable to decode gzipped bytes") :=
  ⟨rfl, rfl⟩

/-- **C9** — the decompression step enforces no output-size ceiling: for
every candidate ceiling `C` there is a decompressor output longer than
`C` that the decoder passes through and succeeds on, instead of failing
with the decompression error. -/
theorem claim_C9 (C : Nat) :
    ∃ decompressed : List Nat, C < decompressed.length ∧
      deserialize_to_serde_json_value_with_keys_ordered_in_alphabetical_order
        (fun _ => some decompressed) (fun bs => some bs) (fun _ => some Json.null)
        "e30=" = .ok Json.null :=
  ⟨List.replicate (C + 1) 0, by simp, rfl⟩

/-- **C9, witness** — `claim_C9` at the concrete ceiling `5`. -/
theorem claim_C9_witness :
    ∃ decompressed : List Nat, 5 < decompressed.length ∧
      deserialize_to_serde_json_value_with_keys_ordered_in_alphabetical_order
        (fun _ => some decompressed) (fun bs => some bs) (fun _ => some Json.null)
        "e30=" = .ok Json.null :=
  claim_C9 5

/-! ## Claim C8 — the non-prefixed hex entry point -/

/-- **C8** — the non-prefixed hex decoder is exactly the prefixed decoder
applied to the re-prefixed string `"0x" ++ s`, for every input string
(it performs no parsing of its own); e.g. `"100"` decodes to 256. -/
theorem claim_C8 :
    (∀ s : String, deserialize_non_prefixed_hex_string_to_felt s =
        deserialize_prefixed_hex_string_to_felt ("0x" ++ s)) ∧
    deserialize_non_prefixed_hex_string_to_felt "100" = .ok 256 :=
  ⟨fun _ => rfl, rfl⟩

/-! ## Claim C5 — the constrained-key constructors -/

/-- **C5** — for each constrained-key variant with its compile-time
exclusive bound (tree-key bound `2^251 + 1`, address bound
`2^251 - 256`), construction from a decoded felt succeeds iff the value
is below the bound, and at or above the bound it fails with `OutOfRange`
carrying the offending value and the bound. -/
theorem claim_C5 :
    (∀ v : Nat, (∃ k, patriciaKeyNew v = .ok k) ↔ v < PATRICIA_KEY_BOUND) ∧
    (∀ v : Nat, PATRICIA_KEY_BOUND ≤ v →
        patriciaKeyNew v = .error (.outOfRange v PATRICIA_KEY_BOUND)) ∧
    (∀ v : Nat, (∃ k, contractAddressNew v = .ok k) ↔ v < CONTRACT_ADDRESS_BOUND) ∧
    (∀ v : Nat, CONTRACT_ADDRESS_BOUND ≤ v →
        contractAddressNew v = .error (.outOfRange v CONTRACT_ADDRESS_BOUND)) := by
  refine ⟨?_, ?_, ?_, ?_⟩
  · intro v
    constructor
    · intro ⟨k, hk⟩
      by_contra hv
      simp [patriciaKeyNew, hv] at hk
    · intro hv
      exact ⟨v, by simp [patriciaKeyNew, hv]⟩
  · intro v hv
    simp [patriciaKeyNew, Nat.not_lt.mpr hv]
  · intro v
    constructor
    · intro ⟨k, hk⟩
      by_contra hv
      simp [contractAddressNew, hv] at hk
    · intro hv
      exact ⟨v, by simp [contractAddressNew, hv]⟩
  · intro v hv
    simp [contractAddressNew, Nat.not_lt.mpr hv]

/-- **C5, witness** — `claim_C5` at the felt `1` (accepted by both
variants) and at the bounds themselves (rejected with `OutOfRange`). -/
theorem claim_C5_witness :
    (∃ k, patriciaKeyNew 1 = .ok k) ∧
    patriciaKeyNew PATRICIA_KEY_BOUND =
      .error (.outOfRange PATRICIA_KEY_BOUND PATRICIA_KEY_BOUND) ∧
    (∃ k, contractAddressNew 1 = .ok k) ∧
    contractAddressNew CONTRACT_ADDRESS_BOUND =
      .error (.outOfRange CONTRACT_ADDRESS_BOUND CONTRACT_ADDRESS_BOUND) :=
  ⟨(claim_C5.1 1).mpr (by norm_num [PATRICIA_KEY_BOUND]),
   claim_C5.2.1 PATRICIA_KEY_BOUND (le_refl _),
   (claim_C5.2.2.1 1).mpr (by norm_num [CONTRACT_ADDRESS_BOUND]),
   claim_C5.2.2.2 CONTRACT_ADDRESS_BOUND (le_refl _)⟩

/-! ## Claim C2 — the empty-params guard -/

/-- A sequence all of whose elements are `null` element-deserializes to
that many units. -/
theorem parseUnitSeq_all_null (items : List Json)
    (hall : ∀ x ∈ items, x = Json.null) :
    parseUnitSeq items = Except.ok (List.replicate items.length ()) := by
  induction items with
  | nil => rfl
  | cons y ys ih =>
      have hy : y = Json.null := hall y (List.mem_cons_self _ _)
      subst hy
      simp only [parseUnitSeq, parseUnit,
        ih (fun x hx => hall x (List.mem_cons_of_mem _ hx))]
      rfl

/-- If the element loop succeeds, every element was `null` (units
deserialize from nothing else). -/
theorem parseUnitSeq_ok_all_null (items : List Json) (us : List Unit)
    (h : parseUnitSeq items = Except.ok us) : ∀ x ∈ items, x = Json.null := by
  induction items generalizing us with
  | nil => intro x hx; exact absurd hx (List.not_mem_nil x)
  | cons y ys ih =>
      intro x hx
      cases y with
      | null =>
          rcases List.mem_cons.mp hx with rfl | hx'
          · rfl
          · revert h
            simp only [parseUnitSeq, parseUnit]
            cases hys : parseUnitSeq ys with
            | error e => intro h; exact absurd h (by simp)
            | ok us' => intro h; exact ih us' hys x hx'
      | bool b => simp [parseUnitSeq, parseUnit] at h
      | num n => simp [parseUnitSeq, parseUnit] at h
      | str s => simp [parseUnitSeq, parseUnit] at h
      | arr xs => simp [parseUnitSeq, parseUnit] at h
      | obj fs => simp [parseUnitSeq, parseUnit] at h

/-- Every error of the element loop is an invalid-type error expecting
`unit` (at the first non-`null` element), never a custom error. -/
theorem parseUnitSeq_error_shape (items : List Json) (e : DeError)
    (h : parseUnitSeq items = Except.error e) :
    ∃ v, e = DeError.invalidType v "unit" := by
  induction items generalizing e with
  | nil => exact absurd h (by simp [parseUnitSeq])
  | cons y ys ih =>
      cases y with
      | null =>
          revert h
          simp only [parseUnitSeq, parseUnit]
          cases hys : parseUnitSeq ys with
          | error e' =>
              intro h
              obtain rfl := Except.error.inj h
              exact ih e' hys
          | ok us => intro h; exact absurd h (by simp)
      | bool b =>
          simp only [parseUnitSeq, parseUnit, Except.error.injEq] at h
          exact ⟨Json.bool b, h.symm⟩
      | num n =>
          simp only [parseUnitSeq, parseUnit, Except.error.injEq] at h
          exact ⟨Json.num n, h.symm⟩
      | str s =>
          simp only [parseUnitSeq, parseUnit, Except.error.injEq] at h
          exact ⟨Json.str s, h.symm⟩
      | arr xs =>
          simp only [parseUnitSeq, parseUnit, Except.error.injEq] at h
          exact ⟨Json.arr xs, h.symm⟩
      | obj fs =>
          simp only [parseUnitSeq, parseUnit, Except.error.injEq] at h
          exact ⟨Json.obj fs, h.symm⟩

/-- Evaluation of the guard on a present array: run the element loop,
then the emptiness check. -/
theorem empty_params_deserialize_arr (items : List Json) :
    empty_params_deserialize (Json.arr items) =
      match parseUnitSeq items with
      | .error e => .error e
      | .ok seq =>
          if seq.isEmpty then .ok ()
          else .error (.custom ("expected params sequence with length 0 but got " ++
            toString seq.length)) := by
  simp only [empty_params_deserialize, parseOptVecUnit, parseVecUnit]
  cases h : parseUnitSeq items with
  | error e => simp [h, Except.map]
  | ok seq => simp [h, Except.map]

/-- A non-empty all-`null` sequence is rejected with the message
reporting its length. -/
theorem empty_params_all_null (items : List Json) (hne : items ≠ [])
    (hall : ∀ x ∈ items, x = Json.null) :
    empty_params_deserialize (Json.arr items) =
      .error (.custom ("expected params sequence with length 0 but got " ++
        toString items.length)) := by
  rw [empty_params_deserialize_arr, parseUnitSeq_all_null items hall]
  obtain ⟨y, ys, rfl⟩ : ∃ y ys, items = y :: ys := by
    cases items with
    | nil => exact absurd rfl hne
    | cons y ys => exact ⟨y, ys, rfl⟩
  simp [List.replicate_succ]

/-- **C2, amended** — the guard accepts absence, `null` and `[]`; every
present non-empty sequence is rejected; the `UnexpectedParameters` error
that reports the sequence length is produced exactly when every element
deserializes as `()` (i.e. is `null`) — a non-empty all-`null` sequence
is rejected with the message reporting its length, and whenever the
length-reporting custom error is produced all elements were `null` —
while `[1]` is instead rejected earlier, by the element deserializer,
with an invalid-type error (integer where `unit` was expected) that
reports no length. -/
theorem claim_C2 :
    empty_params_field none = .ok () ∧
    empty_params_deserialize Json.null = .ok () ∧
    empty_params_deserialize (Json.arr []) = .ok () ∧
    (∀ items : List Json, items ≠ [] →
        ∃ e, empty_params_deserialize (Json.arr items) = .error e) ∧
    (∀ items : List Json, items ≠ [] → (∀ x ∈ items, x = Json.null) →
        empty_params_deserialize (Json.arr items) =
          .error (.custom ("expected params sequence with length 0 but got " ++
            toString items.length))) ∧
    (∀ (items : List Json) (msg : String),
        empty_params_deserialize (Json.arr items) = .error (.custom msg) →
        ∀ x ∈ items, x = Json.null) ∧
    empty_params_deserialize (Json.arr [Json.num 1]) =
      .error (.invalidType (Json.num 1) "unit") := by
  refine ⟨rfl, rfl, rfl, ?_, ?_, ?_, rfl⟩
  · intro items hne
    by_cases hall : ∀ x ∈ items, x = Json.null
    · exact ⟨.custom ("expected params sequence with length 0 but got " ++
        toString items.length), empty_params_all_null items hne hall⟩
    · cases hp : parseUnitSeq items with
      | error e => exact ⟨e, by rw [empty_params_deserialize_arr, hp]⟩
      | ok us => exact absurd (parseUnitSeq_ok_all_null items us hp) hall
  · exact fun items hne hall => empty_params_all_null items hne hall
  · intro items msg h x hx
    cases hp : parseUnitSeq items with
    | ok us => exact parseUnitSeq_ok_all_null items us hp x hx
    | error e =>
        rw [empty_params_deserialize_arr, hp] at h
        obtain ⟨v, hv⟩ := parseUnitSeq_error_shape items e hp
        obtain rfl := Except.error.inj h
        exact DeError.noConfusion hv

/-- **C2, witness** — the three conditional parts of `claim_C2` on
concrete sequences: `[true]` is rejected; `[null]` is rejected with the
length-1 message; and from the length-2 message on `[null, null]` it
follows that both elements are `null`. -/
theorem claim_C2_witness :
    (∃ e, empty_params_deserialize (Json.arr [Json.bool true]) = .error e) ∧
    empty_params_deserialize (Json.arr [Json.null]) =
      .error (.custom ("expected params sequence with length 0 but got " ++
        toString (1 : Nat))) ∧
    (∀ x ∈ [Json.null, Json.null], x = Json.null) :=
  ⟨claim_C2.2.2.2.1 [Json.bool true] (by decide),
   claim_C2.2.2.2.2.1 [Json.null] (by decide) (by decide),
   claim_C2.2.2.2.2.2.1 [Json.null, Json.null]
     ("expected params sequence with length 0 but got " ++ toString (2 : Nat))
     (by decide)⟩

/-- **C2, counterexample** — the claim says `[1]` is rejected with the
`UnexpectedParameters` error reporting length 1; in fact element
deserialization of `1` as `()` fails first, so the error is an
invalid-type error, not the length-reporting one. -/
theorem claim_C2_counterexample :
    empty_params_deserialize (Json.arr [Json.num 1]) ≠
      .error (.custom "expected params sequence with length 0 but got 1") ∧
    empty_params_deserialize (Json.arr [Json.num 1]) =
      .error (.invalidType (Json.num 1) "unit") := by
  exact ⟨by decide, rfl⟩

/-! ## Claim C4 — digit-list machinery for the hex round trip -/

theorem natToHexLEAux_zero (fuel : Nat) : natToHexLEAux fuel 0 = [] := by
  cases fuel <;> simp [natToHexLEAux]

theorem natToHexLEAux_congr (n : Nat) :
    ∀ f g : Nat, n ≤ f → n ≤ g → natToHexLEAux f n = natToHexLEAux g n := by
  induction n using Nat.strong_induction_on with
  | _ n ih =>
      intro f g hf hg
      rcases Nat.eq_zero_or_pos n with hn | hn
      · subst hn
        rw [natToHexLEAux_zero, natToHexLEAux_zero]
      · obtain ⟨f', rfl⟩ : ∃ f', f = f' + 1 := ⟨f - 1, by omega⟩
        obtain ⟨g', rfl⟩ : ∃ g', g = g' + 1 := ⟨g - 1, by omega⟩
        have hdiv : n / 16 < n := Nat.div_lt_self hn (by norm_num)
        simp only [natToHexLEAux, if_neg (by omega : ¬n = 0)]
        rw [ih (n / 16) hdiv f' g' (by omega) (by omega)]

/-- The defining recursion of `natToHexLE`, fuel-free. -/
theorem natToHexLE_eq (n : Nat) (hn : n ≠ 0) :
    natToHexLE n = n % 16 :: natToHexLE (n / 16) := by
  have hdiv : n / 16 < n := Nat.div_lt_self (by omega) (by norm_num)
  obtain ⟨m, rfl⟩ : ∃ m, n = m + 1 := ⟨n - 1, by omega⟩
  show natToHexLEAux (m + 1) (m + 1) = _
  simp only [natToHexLEAux, if_neg hn]
  exact congrArg _ (natToHexLEAux_congr ((m + 1) / 16) m ((m + 1) / 16)
    (by omega) (le_refl _))

theorem natToHexLE_ne_nil (n : Nat) (hn : n ≠ 0) : natToHexLE n ≠ [] := by
  rw [natToHexLE_eq n hn]
  exact List.cons_ne_nil _ _

theorem leVal_natToHexLE (n : Nat) : leVal (natToHexLE n) = n := by
  induction n using Nat.strong_induction_on with
  | _ n ih =>
      rcases Nat.eq_zero_or_pos n with hn | hn
      · subst hn; rfl
      · have hdiv : n / 16 < n := Nat.div_lt_self hn (by norm_num)
        rw [natToHexLE_eq n (by omega), leVal, ih (n / 16) hdiv]
        omega

theorem natToHexLE_lt16 (n : Nat) : ∀ d ∈ natToHexLE n, d < 16 := by
  induction n using Nat.strong_induction_on with
  | _ n ih =>
      rcases Nat.eq_zero_or_pos n with hn | hn
      · subst hn; intro d hd; exact absurd hd (by simp [natToHexLE, natToHexLEAux])
      · have hdiv : n / 16 < n := Nat.div_lt_self hn (by norm_num)
        rw [natToHexLE_eq n (by omega)]
        intro d hd
        rcases List.mem_cons.mp hd with rfl | hd'
        · exact Nat.mod_lt _ (by norm_num)
        · exact ih (n / 16) hdiv d hd'

theorem natToHexLE_getLast (n : Nat) : (natToHexLE n).getLast? ≠ some 0 := by
  induction n using Nat.strong_induction_on with
  | _ n ih =>
      rcases Nat.eq_zero_or_pos n with hn | hn
      · subst hn
        show ([] : List Nat).getLast? ≠ some 0
        simp
      · have hdiv : n / 16 < n := Nat.div_lt_self hn (by norm_num)
        rw [natToHexLE_eq n (by omega)]
        rcases Nat.eq_zero_or_pos (n / 16) with h16 | h16
        · rw [h16]
          show [n % 16].getLast? ≠ some 0
          have : n % 16 = n := Nat.mod_eq_of_lt (by omega)
          simp [this]
          omega
        · obtain ⟨e, es, hc⟩ : ∃ e es, natToHexLE (n / 16) = e :: es := by
            rcases hes : natToHexLE (n / 16) with _ | ⟨e, es⟩
            · exact absurd hes (natToHexLE_ne_nil _ (by omega))
            · exact ⟨e, es, rfl⟩
          rw [hc, List.getLast?_cons_cons]
          have := ih (n / 16) hdiv
          rw [hc] at this
          exact this

theorem leVal_eq_zero_nil (ds : List Nat) (hlast : ds.getLast? ≠ some 0)
    (h : leVal ds = 0) : ds = [] := by
  induction ds with
  | nil => rfl
  | cons d tail ih =>
      have hd : d = 0 ∧ leVal tail = 0 := by
        simp only [leVal] at h
        omega
      cases tail with
      | nil =>
          exfalso
          apply hlast
          rw [hd.1]
          rfl
      | cons e es =>
          have : e :: es = [] := by
            apply ih
            · rw [List.getLast?_cons_cons] at hlast
              exact hlast
            · exact hd.2
          exact absurd this (List.cons_ne_nil _ _)

/-- Canonical little-endian digit lists are exactly the encoder's
output: the encoder is a left inverse of digit evaluation. -/
theorem natToHexLE_leVal (ds : List Nat) (h16 : ∀ d ∈ ds, d < 16)
    (hlast : ds.getLast? ≠ some 0) : natToHexLE (leVal ds) = ds := by
  induction ds with
  | nil => rfl
  | cons d tail ih =>
      have hd16 : d < 16 := h16 d (List.mem_cons_self _ _)
      cases tail with
      | nil =>
          have hdne : d ≠ 0 := by
            intro h0
            apply hlast
            rw [h0]
            rfl
          have hval : leVal [d] = d := by simp [leVal]
          rw [hval, natToHexLE_eq d hdne, Nat.mod_eq_of_lt hd16,
            Nat.div_eq_of_lt hd16]
          rfl
      | cons e es =>
          have htail : (e :: es).getLast? ≠ some 0 := by
            rw [List.getLast?_cons_cons] at hlast
            exact hlast
          have htl : leVal (e :: es) ≠ 0 := by
            intro h0
            exact absurd (leVal_eq_zero_nil _ htail h0) (List.cons_ne_nil _ _)
          have hv : leVal (d :: e :: es) = d + 16 * leVal (e :: es) := rfl
          have hvne : leVal (d :: e :: es) ≠ 0 := by
            rw [hv]; omega
          rw [natToHexLE_eq _ hvne]
          have hmod : leVal (d :: e :: es) % 16 = d := by rw [hv]; omega
          have hdivv : leVal (d :: e :: es) / 16 = leVal (e :: es) := by rw [hv]; omega
          rw [hmod, hdivv, ih (fun x hx => h16 x (List.mem_cons_of_mem _ hx)) htail]

theorem leVal_eq_foldr (l : List Nat) :
    leVal l = l.foldr (fun d a => a * 16 + d) 0 := by
  induction l with
  | nil => rfl
  | cons d tail ih => simp [leVal, ih]; omega

theorem beVal_reverse (l : List Nat) : beVal l.reverse = leVal l := by
  rw [beVal, List.foldl_reverse, leVal_eq_foldr]

theorem beVal_eq_leVal_reverse (l : List Nat) : beVal l = leVal l.reverse := by
  rw [← beVal_reverse l.reverse, List.reverse_reverse]

theorem leVal_eq_zero_mem (l : List Nat) (h : leVal l = 0) : ∀ d ∈ l, d = 0 := by
  induction l with
  | nil => intro d hd; exact absurd hd (List.not_mem_nil d)
  | cons d tail ih =>
      have hd : d = 0 ∧ leVal tail = 0 := by
        simp only [leVal] at h
        omega
      intro x hx
      rcases List.mem_cons.mp hx with rfl | hx'
      · exact hd.1
      · exact ih hd.2 x hx'

/-! ### Character-table lemmas -/

theorem hexCharVal_toHexDigitChar (d : Nat) (h : d < 16) :
    hexCharVal (toHexDigitChar d) = some d := by
  interval_cases d <;> rfl

theorem lowerHex_isSome : ∀ c ∈ lowerHexChars, (hexCharVal c).isSome = true := by
  decide

theorem lowerHex_lt16 : ∀ c ∈ lowerHexChars, (hexCharVal c).getD 0 < 16 := by
  decide

theorem lowerHex_roundtrip :
    ∀ c ∈ lowerHexChars, toHexDigitChar ((hexCharVal c).getD 0) = c := by
  decide

theorem lowerHex_zero :
    ∀ c ∈ lowerHexChars, (hexCharVal c).getD 0 = 0 → c = '0' := by
  decide

theorem toHexDigitChar_mem (d : Nat) (h : d < 16) :
    toHexDigitChar d ∈ lowerHexChars := by
  interval_cases d <;> decide

/-! ### Parsing digit lists -/

theorem hexCharsToDigits_of_isSome (cs : List Char)
    (h : ∀ c ∈ cs, (hexCharVal c).isSome = true) :
    hexCharsToDigits cs = some (cs.map fun c => (hexCharVal c).getD 0) := by
  induction cs with
  | nil => rfl
  | cons c cs' ih =>
      have hc := h c (List.mem_cons_self _ _)
      obtain ⟨d, hd⟩ := Option.isSome_iff_exists.mp hc
      rw [List.map_cons]
      simp only [hexCharsToDigits, hd,
        ih (fun x hx => h x (List.mem_cons_of_mem _ hx))]
      rfl

theorem hexCharsToDigits_map (ds : List Nat) (h : ∀ d ∈ ds, d < 16) :
    hexCharsToDigits (ds.map toHexDigitChar) = some ds := by
  induction ds with
  | nil => rfl
  | cons d ds' ih =>
      rw [List.map_cons]
      simp only [hexCharsToDigits,
        hexCharVal_toHexDigitChar d (h d (List.mem_cons_self _ _)),
        ih (fun x hx => h x (List.mem_cons_of_mem _ hx))]

/-! ### The round trip -/

/-- Decoding a prefixed digit run is the range-checked digit value. -/
theorem from_prefixed_hex_chars_cons (c : Char) (cs : List Char) (ds : List Nat)
    (hds : hexCharsToDigits (c :: cs) = some ds) :
    from_prefixed_hex_chars ('0' :: 'x' :: c :: cs) =
      if beVal ds < FELT_PRIME then .ok (beVal ds)
      else .error TypesError.malformedHex := by
  simp only [from_prefixed_hex_chars, hds]

/-- The string built from `0x` and an explicit character list has the
expected character list. -/
theorem toList_mk_prefixed (cs : List Char) :
    ("0x" ++ String.mk cs).toList = '0' :: 'x' :: cs := rfl

theorem decode_encode_felt (v : Nat) (hv : v < FELT_PRIME) :
    from_prefixed_hex_str (to_prefixed_hex_str v) = .ok v := by
  rcases Nat.eq_zero_or_pos v with h0 | h0
  · subst h0
    rfl
  · have hvne : v ≠ 0 := by omega
    have henc : to_prefixed_hex_str v =
        "0x" ++ String.mk (((natToHexLE v).map toHexDigitChar).reverse) := by
      rw [to_prefixed_hex_str, if_neg hvne]
    obtain ⟨d, ds', hsplit⟩ : ∃ d ds', natToHexLE v = d :: ds' := by
      rcases hl : natToHexLE v with _ | ⟨d, ds'⟩
      · exact absurd hl (natToHexLE_ne_nil v hvne)
      · exact ⟨d, ds', rfl⟩
    have hrev : ((natToHexLE v).map toHexDigitChar).reverse =
        ((natToHexLE v).reverse).map toHexDigitChar := (List.map_reverse _ _).symm
    obtain ⟨c, cs', hcs⟩ : ∃ c cs',
        ((natToHexLE v).map toHexDigitChar).reverse = c :: cs' := by
      rcases hr : ((natToHexLE v).map toHexDigitChar).reverse with _ | ⟨c, cs'⟩
      · exfalso
        have h2 : (natToHexLE v).map toHexDigitChar = [] :=
          List.reverse_eq_nil_iff.mp hr
        rw [hsplit] at h2
        simp at h2
      · exact ⟨c, cs', rfl⟩
    have hdigits : hexCharsToDigits (c :: cs') = some ((natToHexLE v).reverse) := by
      rw [← hcs, hrev]
      exact hexCharsToDigits_map _
        (fun d hd => natToHexLE_lt16 v d (List.mem_reverse.mp hd))
    have hval : beVal ((natToHexLE v).reverse) = v := by
      rw [beVal_reverse, leVal_natToHexLE]
    rw [henc, from_prefixed_hex_str, toList_mk_prefixed, hcs,
      from_prefixed_hex_chars_cons c cs' _ hdigits, hval, if_pos hv]

theorem encode_decode_canonical (s : String) (h : IsCanonicalFeltHex s) :
    Except.map to_prefixed_hex_str (from_prefixed_hex_str s) = .ok s := by
  obtain ⟨cs, hlist, hne, hmem, hzero, hval⟩ := h
  obtain ⟨c, cs', rfl⟩ : ∃ c cs', cs = c :: cs' := by
    rcases cs with _ | ⟨c, cs'⟩
    · exact absurd rfl hne
    · exact ⟨c, cs', rfl⟩
  have hdig : hexCharsToDigits (c :: cs') =
      some ((c :: cs').map fun x => (hexCharVal x).getD 0) :=
    hexCharsToDigits_of_isSome _ (fun x hx => lowerHex_isSome x (hmem x hx))
  have hdecode : from_prefixed_hex_str s =
      .ok (beVal ((c :: cs').map fun x => (hexCharVal x).getD 0)) := by
    rw [from_prefixed_hex_str, hlist,
      from_prefixed_hex_chars_cons c cs' _ hdig, if_pos hval]
  rw [hdecode]
  show Except.ok (to_prefixed_hex_str _) = Except.ok s
  congr 1
  have hlt16 : ∀ d ∈ (c :: cs').map fun x => (hexCharVal x).getD 0, d < 16 := by
    intro d hd
    obtain ⟨x, hx, rfl⟩ := List.mem_map.mp hd
    exact lowerHex_lt16 x (hmem x hx)
  rcases Nat.eq_zero_or_pos (beVal ((c :: cs').map fun x => (hexCharVal x).getD 0))
    with hbe | hbe
  · have hall : ∀ d ∈ (c :: cs').map fun x => (hexCharVal x).getD 0, d = 0 := by
      intro d hd
      have hz : leVal ((c :: cs').map fun x => (hexCharVal x).getD 0).reverse = 0 := by
        rw [← beVal_eq_leVal_reverse, hbe]
      exact leVal_eq_zero_mem _ hz d (List.mem_reverse.mpr hd)
    have hc0 : (hexCharVal c).getD 0 = 0 :=
      hall _ (List.mem_map_of_mem _ (List.mem_cons_self _ _))
    have hcz : c = '0' := lowerHex_zero c (hmem c (List.mem_cons_self _ _)) hc0
    subst hcz
    have hsc : ('0' : Char) :: cs' = ['0'] := hzero rfl
    rw [hbe]
    show ("0x0" : String) = s
    apply String.ext
    show ('0' : Char) :: 'x' :: ['0'] = s.data
    rw [← hsc]
    exact hlist.symm
  · have hd0 : (hexCharVal c).getD 0 ≠ 0 := by
      intro h0
      have hcz : c = '0' := lowerHex_zero c (hmem c (List.mem_cons_self _ _)) h0
      subst hcz
      have hsc : ('0' : Char) :: cs' = ['0'] := hzero rfl
      rw [hsc] at hbe
      have : beVal ([('0' : Char)].map fun x => (hexCharVal x).getD 0) = 0 := rfl
      omega
    have hlast : (((c :: cs').map fun x => (hexCharVal x).getD 0).reverse).getLast? ≠
        some 0 := by
      rw [List.getLast?_reverse, List.map_cons]
      intro hcon
      exact hd0 (by simpa using hcon)
    have hrevval :
        leVal (((c :: cs').map fun x => (hexCharVal x).getD 0).reverse) =
          beVal ((c :: cs').map fun x => (hexCharVal x).getD 0) :=
      (beVal_eq_leVal_reverse _).symm
    have henc : natToHexLE (beVal ((c :: cs').map fun x => (hexCharVal x).getD 0)) =
        ((c :: cs').map fun x => (hexCharVal x).getD 0).reverse := by
      rw [← hrevval]
      exact natToHexLE_leVal _ (fun d hd => hlt16 d (List.mem_reverse.mp hd)) hlast
    rw [to_prefixed_hex_str, if_neg (by omega), henc]
    have hmap : ((((c :: cs').map fun x => (hexCharVal x).getD 0).reverse).map
        toHexDigitChar).reverse = c :: cs' := by
      rw [List.map_reverse, List.reverse_reverse, List.map_map]
      have hpt : ∀ x ∈ c :: cs',
          (toHexDigitChar ∘ fun y => (hexCharVal y).getD 0) x = id x :=
        fun x hx => lowerHex_roundtrip x (hmem x hx)
      rw [List.map_congr_left hpt, List.map_id]
    rw [hmap]
    exact String.ext hlist.symm

/-- **C4** — the field-element round-trip law: decoding the encoding is
the identity for every field element below the modulus; encoding the
decoding reproduces every already-canonical hex string (canonical per the
spec's data model: `0x`, lowercase digits, no superfluous leading zeros,
value below the field modulus); and the spec's example holds:
`"0x100"` decodes to 256 and 256 encodes to `"0x100"`. -/
theorem claim_C4 :
    (∀ v : Nat, v < FELT_PRIME →
        from_prefixed_hex_str (to_prefixed_hex_str v) = .ok v) ∧
    (∀ s : String, IsCanonicalFeltHex s →
        Except.map to_prefixed_hex_str (from_prefixed_hex_str s) = .ok s) ∧
    from_prefixed_hex_str "0x100" = .ok 256 ∧
    to_prefixed_hex_str 256 = "0x100" :=
  ⟨decode_encode_felt, encode_decode_canonical, rfl, rfl⟩

/-- **C4, witness** — the round-trip law of `claim_C4` at the felt `256`
and at the canonical string `"0x1a"`. -/
theorem claim_C4_witness :
    from_prefixed_hex_str (to_prefixed_hex_str 256) = .ok 256 ∧
    Except.map to_prefixed_hex_str (from_prefixed_hex_str "0x1a") = .ok "0x1a" :=
  ⟨claim_C4.1 256 (by decide),
   claim_C4.2.1 "0x1a" ⟨['1', 'a'], rfl, by decide, by decide, by decide, by decide⟩⟩

/-- The modulus literal is the Stark prime `2^251 + 17 * 2^192 + 1`. -/
theorem FELT_PRIME_eq : FELT_PRIME = 2 ^ 251 + 17 * 2 ^ 192 + 1 := by
  norm_num [FELT_PRIME]

/-- **C7, witness** — `claim_C7` at concrete (failing) decompressor and
parser: the empty string still decodes to the null document. -/
theorem claim_C7_witness :
    deserialize_to_serde_json_value_with_keys_ordered_in_alphabetical_order
      (fun _ => none) (fun _ => (none : Option Unit)) (fun _ => none) "" =
      .ok Json.null :=
  claim_C7 Unit (fun _ => none) (fun _ => none) (fun _ => none)

/-- **C8, witness** — `claim_C8` at the concrete input `"ff"`. -/
theorem claim_C8_witness :
    deserialize_non_prefixed_hex_string_to_felt "ff" =
      deserialize_prefixed_hex_string_to_felt ("0x" ++ "ff") :=
  claim_C8.1 "ff"
